import Mathlib

/-!
Shallow embedding of the saturn-network market-maker strategy.

Sources embedded:
  - src/src/strategy/market_making.ts  (class MarketMaker)
  - src/src/actiontypes.ts             (ActionType union)
  - src/unnamed/part_000               (charts/orderbook: OrderBookChart)

Conventions of the embedding:
  - BigNumber values become ℚ (the library is exact decimal arithmetic; its
    division rounds at 20 decimal places, which we model as exact division).
  - BigNumber.toFixed(d) with the default ROUND_HALF_UP mode becomes the
    function toFixed below, producing the rational denoted by the emitted
    decimal string.  toFixed() with no argument is exact and is modelled as
    the identity.
  - The external collaborators (saturn.query, the ethers provider, the ERC20
    contract) are modelled by a World record holding the values they return
    during one decision cycle: the engine awaits each of them sequentially
    and then computes purely.
  - console.log calls and chalk colouring are side effects on the terminal
    only and are modelled as no-ops (chalkGreen / chalkRed are the identity
    on the plotted text).
  - JavaScript exceptions (the thin-book throw, and the TypeError /
    RangeError paths of the chart code) become Except.error.
  - String passthrough fields that the engine merely copies from config
    (the blockchain tag) are elided from the action records.
-/

namespace Saturn

/-- One resting order as returned by the exchange API: a price, the
remaining balance, and the pair of identifiers used to target it. -/
structure Order where
  price : ℚ
  balance : ℚ
  contract : String
  transaction : String
deriving DecidableEq

/-- MarketMakerConfig from market_making.ts (the numeric strategy
parameters; the collaborator handles themselves live in World). -/
structure MarketMakerConfig where
  fundMinimum : ℚ
  tokenLimit : ℚ
  spread : ℚ
  dustCutoff : ℚ
  bandSize : ℚ
deriving DecidableEq

/-- The responses of the external collaborators consumed during one
invocation of the decision cycle: the order book, the bot.s own resting
orders (fetchOrdersFor, already split by side), the best orders reported
by getTokenInfo/getOrderByTx, the wallet balances, and the token decimal
precision. -/
structure World where
  buys : List Order
  sells : List Order
  myBuys : List Order
  mySells : List Order
  bestBuyOrder : Order
  bestSellOrder : Order
  etherBalanceWei : ℚ
  tokenBalanceRaw : ℚ
  decimals : Nat
  config : MarketMakerConfig

/-- lodash _.reduce(list, (x, y) => x.plus(y), new BigNumber(0)). -/
def sumQ (l : List ℚ) : ℚ := l.foldl (fun x y => x + y) 0

/-- BigNumber.toFixed(d) under the default ROUND_HALF_UP rounding mode:
round to d decimal places, ties away from zero. -/
def toFixed (d : Nat) (q : ℚ) : ℚ :=
  if 0 ≤ q then (⌊q * 10 ^ d + 1 / 2⌋ : ℚ) / 10 ^ d
  else -((⌊-q * 10 ^ d + 1 / 2⌋ : ℚ) / 10 ^ d)

/-- PRICEDECIMALS constant of market_making.ts. -/
def PRICEDECIMALS : Nat := 6

/-- bestSellPrice(): price of the order found through
getTokenInfo().best_sell_order_tx. -/
def bestSellPrice (w : World) : ℚ := w.bestSellOrder.price

/-- bestBuyPrice(): price of the order found through
getTokenInfo().best_buy_order_tx. -/
def bestBuyPrice (w : World) : ℚ := w.bestBuyOrder.price

/-- spread() = bestSellPrice - bestBuyPrice. -/
def spread (w : World) : ℚ := bestSellPrice w - bestBuyPrice w

/-- sellDepth(): notional (balance times price) summed over the sell side
of the order book. -/
def sellDepth (w : World) : ℚ := sumQ (w.sells.map (fun o => o.balance * o.price))

/-- buyDepth(): notional summed over the buy side of the order book. -/
def buyDepth (w : World) : ℚ := sumQ (w.buys.map (fun o => o.balance * o.price))

/-- weightedMidMarketPrice() of market_making.ts. -/
def weightedMidMarketPrice (w : World) : ℚ :=
  (bestSellPrice w * buyDepth w + bestBuyPrice w * sellDepth w)
    / (sellDepth w + buyDepth w)

/-- availableEther(): wallet wei balance minus the configured reserve,
scaled to ether, floored at zero. -/
def availableEther (w : World) : ℚ :=
  max 0 ((w.etherBalanceWei - 10 ^ 18 * w.config.fundMinimum) / 10 ^ 18)

/-- availableTokens(): ERC20 balance scaled by the token decimals, capped
by config.tokenLimit. -/
def availableTokens (w : World) : ℚ :=
  min (w.tokenBalanceRaw / 10 ^ w.decimals) w.config.tokenLimit

/-- etherLockedForAddress(botAddress): notional summed over the bot.s own
resting buy orders. -/
def etherLockedForAddress (w : World) : ℚ :=
  sumQ (w.myBuys.map (fun o => o.balance * o.price))

/-- tokensLockedForAddress(botAddress): balance summed over the bot.s own
resting sell orders. -/
def tokensLockedForAddress (w : World) : ℚ :=
  sumQ (w.mySells.map (fun o => o.balance))

/-- The buy/sell tag of a NewOrder action. -/
inductive Side where
  | buy
  | sell
deriving DecidableEq

/-- ActionType of actiontypes.ts (Trade, NewOrder a.k.a CreateOrder,
CancelOrder), with amounts and prices as the rationals denoted by the
emitted decimal strings. -/
inductive ActionType where
  | Trade (contract : String) (order_tx : String) (amount : ℚ)
  | NewOrder (order_type : Side) (amount : ℚ) (price : ℚ)
  | CancelOrder (contract : String) (order_tx : String)
deriving DecidableEq

/-- lodash _.filter with a decidable predicate. -/
def filterP {α : Type} (p : α → Prop) [DecidablePred p] : List α → List α
  | [] => []
  | x :: xs => if p x then x :: filterP p xs else filterP p xs

/-- newBuys() of market_making.ts.  The emitted amount string is
tokenAmount.toFixed(decimals) and the price string is
optimalPrice.toFixed(PRICEDECIMALS). -/
def newBuys (w : World) : List ActionType :=
  let funds := availableEther w
  if funds ≤ w.config.dustCutoff then []
  else
    let bbp := bestBuyPrice w
    let optimalPrice := weightedMidMarketPrice w - spread w / 2
    if optimalPrice ≤ bbp then []
    else
      let tokenAmount := funds / optimalPrice
      [ActionType.NewOrder Side.buy (toFixed w.decimals tokenAmount)
        (toFixed PRICEDECIMALS optimalPrice)]

/-- newSells() of market_making.ts. -/
def newSells (w : World) : List ActionType :=
  let funds := availableTokens w - tokensLockedForAddress w
  if funds ≤ 0 then []
  else
    let bsp := bestSellPrice w
    let optimalPrice := weightedMidMarketPrice w + spread w / 2
    if bsp ≤ optimalPrice then []
    else
      [ActionType.NewOrder Side.sell (toFixed w.decimals funds)
        (toFixed PRICEDECIMALS optimalPrice)]

/-- newOrders() of market_making.ts: skip when the market spread is at or
below the configured spread, otherwise concatenate the buy and sell
quotes. -/
def newOrders (w : World) : List ActionType :=
  if spread w ≤ w.config.spread then []
  else newBuys w ++ newSells w

/-- pruneSells(orders): dust filter (notional at or below dustCutoff)
concatenated with the outsider filter (price above
weightedMid + bandSize * spread).  The source keeps only the contract
and transaction fields of each record; the later map into CancelOrder
reads exactly those, so we keep the whole order here. -/
def pruneSells (w : World) (orders : List Order) : List Order :=
  let dust := filterP (fun x => x.balance * x.price ≤ w.config.dustCutoff) orders
  let cutoff := weightedMidMarketPrice w + w.config.bandSize * w.config.spread
  let outsiders := filterP (fun x => cutoff < x.price) orders
  dust ++ outsiders

/-- pruneBuys(orders): dust filter concatenated with the outsider filter
(price below weightedMid - bandSize * spread). -/
def pruneBuys (w : World) (orders : List Order) : List Order :=
  let dust := filterP (fun x => x.balance * x.price ≤ w.config.dustCutoff) orders
  let cutoff := weightedMidMarketPrice w - w.config.bandSize * w.config.spread
  let outsiders := filterP (fun x => x.price < cutoff) orders
  dust ++ outsiders

/-- cleanupOrders(): prune the bot.s own sells and buys and wrap every
survivor of the filters into a CancelOrder action. -/
def cleanupOrders (w : World) : List ActionType :=
  (pruneSells w w.mySells ++ pruneBuys w w.myBuys).map
    (fun x => ActionType.CancelOrder x.contract x.transaction)

/-- checkArbOpportunity() of market_making.ts: on a crossed book
(spread at or below 0), no action when availableTokens is exactly 0,
otherwise two Trade actions (best buy leg first, then best sell leg),
both sized BigNumber.min(bbo.balance, bso.balance, available).  The
amount string is toFixed() with no argument, hence exact. -/
def checkArbOpportunity (w : World) : List ActionType :=
  if spread w ≤ 0 then
    if availableTokens w = 0 then []
    else
      let tokenAmount :=
        min (min w.bestBuyOrder.balance w.bestSellOrder.balance) (availableTokens w)
      [ActionType.Trade w.bestBuyOrder.contract w.bestBuyOrder.transaction tokenAmount,
       ActionType.Trade w.bestSellOrder.contract w.bestSellOrder.transaction tokenAmount]
  else []

/-- The message of the Error thrown by ensureValidOrderBook (template
interpolation elided). -/
def thinBookMessage : String :=
  "The order book for this token is too thin for this bot to properly work. Consider manually creating orders first. The bot needs at least 2 buy and sell orders."

/-- ensureValidOrderBook(): throws when either side of the book holds
fewer than healthyCutoff = 2 orders. -/
def ensureValidOrderBook (w : World) : Except String Unit :=
  if w.buys.length < 2 ∨ w.sells.length < 2 then Except.error thinBookMessage
  else Except.ok ()

/-- Recognizer for Trade actions. -/
def isTrade : ActionType → Bool
  | ActionType.Trade _ _ _ => true
  | _ => false

/-- Recognizer for CancelOrder actions. -/
def isCancel : ActionType → Bool
  | ActionType.CancelOrder _ _ => true
  | _ => false

/-- Recognizer for NewOrder actions. -/
def isNewOrder : ActionType → Bool
  | ActionType.NewOrder _ _ _ => true
  | _ => false

/-- Number of CancelOrder actions in a list aimed at a given
(contract, order_tx) target. -/
def countTarget (c t : String) (l : List ActionType) : Nat :=
  (filterP (fun a => a = ActionType.CancelOrder c t) l).length

/-- Number of orders in a list carrying a given (contract, transaction)
identifier. -/
def countId (c t : String) (l : List Order) : Nat :=
  (filterP (fun x => x.contract = c ∧ x.transaction = t) l).length

/-- Whether a fallible computation completed without throwing. -/
def isOk {α : Type} (e : Except String α) : Bool :=
  match e with
  | Except.ok _ => true
  | Except.error _ => false

/-! ### charts/orderbook (src/unnamed/part_000) -/

/-- etherBalance(order) of the chart code: balance times price. -/
def etherBalance (o : Order) : ℚ := o.balance * o.price

/-- Insertion into a price-sorted list (helper for sortByPrice). -/
def insertByPrice (o : Order) : List Order → List Order
  | [] => [o]
  | x :: xs => if o.price ≤ x.price then o :: x :: xs else x :: insertByPrice o xs

/-- The in-place numeric-comparator sort of the chart constructor,
modelled as a stable sort by ascending price. -/
def sortByPrice (l : List Order) : List Order := l.foldr insertByPrice []

/-- The loop of filterSellOrders from index 2 onward: accumulate the
running notional; keep while it stays at or below upperLimit; the first
order crossing the limit is kept with its balance rewritten to
upperLimit / price, the truncated flag is raised and the loop breaks. -/
def filterGo (upperLimit : ℚ) : ℚ → List Order → List Order × Bool
  | _, [] => ([], false)
  | currentLimit, o :: rest =>
    let cl := currentLimit + etherBalance o
    if cl ≤ upperLimit then
      let r := filterGo upperLimit cl rest
      (o :: r.1, r.2)
    else
      ([⟨o.price, upperLimit / o.price, o.contract, o.transaction⟩], true)

/-- filterSellOrders(orders) of the chart code, for inputs of length at
least 2: the first two orders are pushed unconditionally, then the loop
runs from index 2.  (On shorter inputs the source pushes undefined array
slots; that path is modelled in mkChart, which raises the TypeError the
source produces when the undefined entries are dereferenced.) -/
def filterSellOrders (upperLimit : ℚ) (orders : List Order) : List Order × Bool :=
  match orders with
  | o0 :: o1 :: rest =>
    ((o0 :: o1 :: (filterGo upperLimit 0 rest).1), (filterGo upperLimit 0 rest).2)
  | short => (short, false)

/-- The order rewritten by the truncation branch of filterSellOrders. -/
def truncateOrder (U : ℚ) (o : Order) : Order :=
  ⟨o.price, U / o.price, o.contract, o.transaction⟩

/-- Running cumulative notionals of a list, starting from cur (reference
definition for the filterSellOrders characterization). -/
def cumLimits (cur : ℚ) : List Order → List ℚ
  | [] => []
  | o :: rest => (cur + etherBalance o) :: cumLimits (cur + etherBalance o) rest

/-- Number of leading tail orders whose running cumulative notional stays
at or below U. -/
def keepCount (U : ℚ) (l : List Order) : Nat :=
  ((cumLimits 0 l).takeWhile (fun q => decide (q ≤ U))).length

/-- Reference characterization of the outlier filter, following the claim
wording: keep the first two orders unconditionally; from the third order
onward keep while the running cumulative notional stays at or below U;
the first order crossing U is kept with its balance rewritten to
U / price and the truncated flag set; all later orders are dropped. -/
def filterSpec (U : ℚ) (orders : List Order) : List Order × Bool :=
  match orders with
  | o0 :: o1 :: tail =>
    let k := keepCount U tail
    if k = tail.length then (o0 :: o1 :: tail, false)
    else (o0 :: o1 :: (tail.take k ++ ((tail.drop k).take 1).map (truncateOrder U)), true)
  | short => (short, false)

/-- The state built by the OrderBookChart constructor.  Mind the side
swap documented in the source: the plotted buys are the raw sell-side
liquidity and vice versa. -/
structure OrderBookChart where
  buys : List Order
  sells : List Order
  buyDepth : ℚ
  sellDepth : ℚ
  truncated : Bool

/-- The OrderBookChart constructor: sort the raw sells into the plotted
buy side and total their notional; filter the raw buys through
filterSellOrders (capped at 1.5 times the buy depth), sort them into the
plotted sell side and total their notional.  With fewer than 2 raw buy
orders the source pushes undefined slots in filterSellOrders and the
notional reduction then dereferences undefined, raising a TypeError;
that path is the error branch here. -/
def mkChart (buys sells : List Order) : Except String OrderBookChart :=
  let cbuys := sortByPrice sells
  let bd := sumQ (cbuys.map etherBalance)
  if 2 ≤ buys.length then
    let fb := filterSellOrders (bd * (3 / 2)) buys
    Except.ok ⟨cbuys, sortByPrice fb.1, bd, sumQ (fb.1.map etherBalance), fb.2⟩
  else Except.error "TypeError: cannot read properties of undefined"

/-- buyDepthAtIndex(idx): the buy depth minus the notionals of the first
idx+1 plotted buy orders. -/
def buyDepthAtIndex (c : OrderBookChart) (idx : Nat) : ℚ :=
  c.buyDepth - sumQ ((c.buys.take (idx + 1)).map etherBalance)

/-- sellDepthAtIndex(idx): the notionals of the first idx+1 plotted sell
orders. -/
def sellDepthAtIndex (c : OrderBookChart) (idx : Nat) : ℚ :=
  sumQ ((c.sells.take (idx + 1)).map etherBalance)

/-- Math.round on the value of a BigNumber: round half towards plus
infinity. -/
def jsRound (q : ℚ) : ℤ := ⌊q + 1 / 2⌋

/-- The integers of a JavaScript for-loop running from lo while < hi. -/
def intRange (lo hi : ℤ) : List ℤ :=
  (List.range (hi - lo).toNat).map (fun k : Nat => lo + (k : ℤ))

/-- The character canvas: an array of rows of cell strings. -/
abbrev Grid := List (List String)

/-- chalk.green only wraps the text in terminal colour codes. -/
def chalkGreen (s : String) : String := s

/-- chalk.red only wraps the text in terminal colour codes. -/
def chalkRed (s : String) : String := s

/-- Two-digit zero padding for the fractional part of a label. -/
def natPad2 (n : Nat) : String := if n < 10 then "0" ++ toString n else toString n

/-- Number.prototype.toFixed(2) on a label value. -/
def qToFixed2 (q : ℚ) : String :=
  let n := (jsRound (|q| * 100)).toNat
  (if q < 0 then "-" else "") ++ toString (n / 100) ++ "." ++ natPad2 (n % 100)

/-- The label formatter of plot: right-align toFixed(2) in an 11 character
gutter. -/
def chartFormat (q : ℚ) : String :=
  let padding := "           "
  let s := padding ++ qToFixed2 q
  s.drop (s.length - padding.length)

/-- Write into one row at column j; JavaScript assignment beyond the
current length extends the row (holes join as empty strings). -/
def setInRow (row : List String) (j : Nat) (s : String) : List String :=
  if j < row.length then row.set j s
  else row ++ List.replicate (j - row.length) "" ++ [s]

/-- result[i][j] = s of the source: reading result[i] outside the
allocated rows yields undefined and the subsequent indexed assignment
throws a TypeError; a negative column index is a plain property write,
invisible to join. -/
def setCell (g : Grid) (i : ℤ) (j : ℤ) (s : String) : Except String Grid :=
  if 0 ≤ i ∧ i < (g.length : ℤ) then
    if 0 ≤ j then Except.ok (g.set i.toNat (setInRow (g.getD i.toNat []) j.toNat s))
    else Except.ok g
  else Except.error "TypeError: cannot set properties of undefined"

/-- The step segment drawn between two consecutive curve columns: a flat
glyph when the scaled rows agree, otherwise two corner glyphs joined by a
vertical run (shared shape of the buy loop and the sell loop of plot). -/
def drawStep (g : Grid) (rows : Nat) (col : ℤ) (y0 y1 : ℤ)
    (colour : String → String) : Except String Grid :=
  if y0 = y1 then setCell g ((rows : ℤ) - y0) col (colour "─")
  else do
    let g ← setCell g ((rows : ℤ) - y1) col (colour (if y1 < y0 then "╰" else "╭"))
    let g ← setCell g ((rows : ℤ) - y0) col (colour (if y1 < y0 then "╮" else "╯"))
    (intRange (min y0 y1 + 1) (max y0 y1)).foldlM
      (fun g y => setCell g ((rows : ℤ) - y) col (colour "│")) g

/-- plot() of the chart code.  BigNumber division of 8 by a zero range
yields Infinity, the derived row count is NaN, and the Array(NaN)
allocation throws a RangeError; that is the zero-range error branch. -/
def plot (c : OrderBookChart) : Except String String :=
  let bmax : ℚ := if c.sellDepth < c.buyDepth then c.buyDepth else c.sellDepth
  let range := bmax
  if range = 0 then Except.error "RangeError: invalid array length"
  else
    let offset : ℤ := 3
    let height : ℚ := 8
    let rscale := height / range
    let min2 := jsRound (0 * rscale)
    let max2 := jsRound (bmax * rscale)
    let rows := (max2 - min2).natAbs
    let width := c.buys.length + c.sells.length + 3
    let g0 : Grid := List.replicate (rows + 1) (List.replicate width " ")
    do
      let g1 ← (intRange min2 (max2 + 1)).foldlM (fun g y => do
        let label := chartFormat (bmax - (((y - min2 : ℤ) : ℚ)) * range / (rows : ℚ))
        let g ← setCell g (y - min2) (max ((offset : ℤ) - (label.length : ℤ)) 0) label
        setCell g (y - min2) (offset - 1) "┤") g0
      let gy0 := jsRound (buyDepthAtIndex c 0 * rscale) - min2
      let g2 ← setCell g1 ((rows : ℤ) - gy0) (offset - 1) (chalkGreen "┼")
      let g3 ← (intRange 0 ((c.buys.length : ℤ) - 1)).foldlM (fun g x =>
        drawStep g rows (x + offset)
          (jsRound (buyDepthAtIndex c (x.toNat + 0) * rscale) - min2)
          (jsRound (buyDepthAtIndex c (x.toNat + 1) * rscale) - min2) chalkGreen) g2
      let sfrom := jsRound (sellDepthAtIndex c 0 * rscale) - min2
      let sto := jsRound (sellDepthAtIndex c 1 * rscale) - min2
      let g4 ←
        if sto ≠ sfrom then do
          let g ← setCell g3 (rows : ℤ) ((c.buys.length : ℤ) + offset - 1) (chalkRed "╯")
          let g ← setCell g ((rows : ℤ) - sto) ((c.buys.length : ℤ) + offset - 1) (chalkRed "╭")
          (intRange 1 sto).foldlM
            (fun g y => setCell g ((rows : ℤ) - y) ((c.buys.length : ℤ) + offset - 1)
              (chalkRed "│")) g
        else setCell g3 (rows : ℤ) ((c.buys.length : ℤ) + offset - 1) (chalkRed "─")
      let g5 ← (intRange 1 ((c.sells.length : ℤ) - 1)).foldlM (fun g x =>
        drawStep g rows (x + offset + (c.buys.length : ℤ) - 1)
          (jsRound (sellDepthAtIndex c (x.toNat + 0) * rscale) - min2)
          (jsRound (sellDepthAtIndex c (x.toNat + 1) * rscale) - min2) chalkRed) g4
      let g6 ← if c.truncated then setCell g5 0 (width : ℤ) (chalkRed "↑") else Except.ok g5
      Except.ok (String.intercalate "\n" (g6.map (fun row => String.join row)))

/-- OrderBookPrinter.print without the console date line: construct the
chart and plot it. -/
def renderChart (buys sells : List Order) : Except String String :=
  (mkChart buys sells).bind plot

/-- printMarketHealth() of market_making.ts: logs the snapshot numbers
(console side effects, elided) and then renders the diagnostic
order-book chart through plotOrderBook()/OrderBookPrinter.  The chart
construction and plot can throw; that failure aborts the decision
cycle, so it is kept in the model. -/
def printMarketHealth (w : World) : Except String Unit :=
  match renderChart w.buys w.sells with
  | Except.ok _ => Except.ok ()
  | Except.error e => Except.error e

/-- getActions() of market_making.ts: validate the book, print market
health (which renders the diagnostic chart and propagates its failure),
then return the first non-empty list among arbitrage trades, cleanups
and new quotes. -/
def getActions (w : World) : Except String (List ActionType) :=
  match ensureValidOrderBook w with
  | Except.error e => Except.error e
  | Except.ok _ =>
    match printMarketHealth w with
    | Except.error e => Except.error e
    | Except.ok _ =>
      let arbs := checkArbOpportunity w
      if arbs.length ≠ 0 then Except.ok arbs
      else
        let cleanup := cleanupOrders w
        if cleanup.length ≠ 0 then Except.ok cleanup
        else
          let fresh := newOrders w
          if fresh.length ≠ 0 then Except.ok fresh
          else Except.ok []

/-! ### Concrete cycle inputs used by witnesses and counterexamples -/

/-- A healthy two-order buy side: two unit buys at price 1. -/
def bookBuys2 : List Order := [⟨1, 1, "b1", "bt1"⟩, ⟨1, 1, "b2", "bt2"⟩]

/-- A healthy two-order sell side: two unit sells at price 2. -/
def bookSells2 : List Order := [⟨2, 1, "s1", "st1"⟩, ⟨2, 1, "s2", "st2"⟩]

/-- An own sell order that is simultaneously dust (notional 1/10) and a
band outlier (price 10). -/
def osell : Order := ⟨10, 1 / 100, "c1", "t1"⟩

/-- Cycle input where the bot owns exactly the order osell: the weighted
mid price is 4/3 and the sell-side band cutoff is 7/3. -/
def wc3 : World :=
  ⟨bookBuys2, bookSells2, [], [osell], ⟨1, 1, "b1", "bt1"⟩, ⟨2, 1, "s1", "st1"⟩,
    0, 0, 0, ⟨0, 100, 1, 1, 1⟩⟩

/-- A buy-heavy book: notional depth 20 against 4. -/
def w4buys : List Order := [⟨1, 10, "b1", "bt1"⟩, ⟨1, 10, "b2", "bt2"⟩]

/-- Cycle input with configured spread 1/10, market spread 1, weighted
mid 11/6 and 2 ether of free funds: the buy quote lands at 4/3. -/
def w4 : World :=
  ⟨w4buys, bookSells2, [], [], ⟨1, 10, "b1", "bt1"⟩, ⟨2, 1, "s1", "st1"⟩,
    2 * 10 ^ 18, 0, 2, ⟨0, 100, 1 / 10, 1, 1⟩⟩

/-- Cycle input with a crossed book (best buy 2 above best sell 1) and 3
tokens available. -/
def wArb : World :=
  ⟨bookBuys2, bookSells2, [], [], ⟨2, 5 / 4, "bb", "bbt"⟩, ⟨1, 2, "bs", "bst"⟩,
    0, 3, 0, ⟨0, 10, 1 / 10, 1, 1⟩⟩

/-- Cycle input whose market spread 1/20 is below the configured spread
1/10. -/
def wTight : World :=
  ⟨bookBuys2, bookSells2, [], [], ⟨1, 1, "b1", "bt1"⟩, ⟨21 / 20, 1, "s1", "st1"⟩,
    0, 0, 0, ⟨0, 10, 1 / 10, 1, 1⟩⟩

/-- Cycle input with an empty buy side. -/
def wThin : World :=
  ⟨[], bookSells2, [], [], ⟨1, 1, "b1", "bt1"⟩, ⟨2, 1, "s1", "st1"⟩,
    0, 0, 0, ⟨0, 10, 1 / 10, 1, 1⟩⟩

/-- A deep sell side making the book sell-heavy. -/
def wc10sells : List Order := [⟨2, 10, "s1", "st1"⟩, ⟨2, 10, "s2", "st2"⟩]

/-- Cycle input with tokenLimit 1/2 and token precision 0 decimals: the
sell amount 1/2 rounds up to 1 on emission. -/
def wc10 : World :=
  ⟨bookBuys2, wc10sells, [], [], ⟨1, 1, "b1", "bt1"⟩, ⟨2, 10, "s1", "st1"⟩,
    0, 5, 0, ⟨0, 1 / 2, 1 / 10, 1, 1⟩⟩

/-- Three sell orders for the outlier filter: two unit orders and a 100
unit tail at price 1. -/
def l3 : List Order := [⟨1, 1, "a", "at"⟩, ⟨1, 1, "b", "bt"⟩, ⟨1, 100, "c", "ct"⟩]

/-- A buy side of two fully-filled orders: positive prices, zero
balances. -/
def zeroBuys : List Order := [⟨1, 0, "b1", "bt1"⟩, ⟨1, 0, "b2", "bt2"⟩]

/-- A sell side of two fully-filled orders. -/
def zeroSells : List Order := [⟨2, 0, "s1", "st1"⟩, ⟨2, 0, "s2", "st2"⟩]

/-- Cycle input with 2 orders per side but zero notional depth on both
sides: the diagnostic chart divides 8 by a zero range and throws while
allocating the canvas. -/
def wZero : World :=
  ⟨zeroBuys, zeroSells, [], [], ⟨1, 0, "b1", "bt1"⟩, ⟨2, 0, "s1", "st1"⟩,
    0, 0, 0, ⟨0, 10, 1 / 10, 1, 1⟩⟩

/-! ### Helper lemmas -/

theorem checkArb_isTrade (w : World) : ∀ a ∈ checkArbOpportunity w, isTrade a = true := by
  intro a ha
  unfold checkArbOpportunity at ha
  split at ha
  · split at ha
    · simp at ha
    · simp only [List.mem_cons, List.not_mem_nil, or_false] at ha
      rcases ha with rfl | rfl <;> rfl
  · simp at ha

theorem cleanup_isCancel (w : World) : ∀ a ∈ cleanupOrders w, isCancel a = true := by
  intro a ha
  unfold cleanupOrders at ha
  rcases List.mem_map.mp ha with ⟨x, _, rfl⟩
  rfl

theorem newBuys_eq (w : World) :
    newBuys w =
      if availableEther w ≤ w.config.dustCutoff then []
      else if weightedMidMarketPrice w - spread w / 2 ≤ bestBuyPrice w then []
      else
        [ActionType.NewOrder Side.buy
          (toFixed w.decimals (availableEther w / (weightedMidMarketPrice w - spread w / 2)))
          (toFixed PRICEDECIMALS (weightedMidMarketPrice w - spread w / 2))] := rfl

theorem newSells_eq (w : World) :
    newSells w =
      if availableTokens w - tokensLockedForAddress w ≤ 0 then []
      else if bestSellPrice w ≤ weightedMidMarketPrice w + spread w / 2 then []
      else
        [ActionType.NewOrder Side.sell
          (toFixed w.decimals (availableTokens w - tokensLockedForAddress w))
          (toFixed PRICEDECIMALS (weightedMidMarketPrice w + spread w / 2))] := rfl

theorem newBuys_isNewOrder (w : World) : ∀ a ∈ newBuys w, isNewOrder a = true := by
  intro a ha
  rw [newBuys_eq] at ha
  split_ifs at ha
  · simp at ha
  · simp at ha
  · simp only [List.mem_singleton] at ha
    subst ha
    rfl

theorem newSells_isNewOrder (w : World) : ∀ a ∈ newSells w, isNewOrder a = true := by
  intro a ha
  rw [newSells_eq] at ha
  split_ifs at ha
  · simp at ha
  · simp at ha
  · simp only [List.mem_singleton] at ha
    subst ha
    rfl

theorem newOrders_isNewOrder (w : World) : ∀ a ∈ newOrders w, isNewOrder a = true := by
  intro a ha
  unfold newOrders at ha
  split_ifs at ha
  · simp at ha
  · rcases List.mem_append.mp ha with h | h
    · exact newBuys_isNewOrder w a h
    · exact newSells_isNewOrder w a h

theorem ensureValid_ok (w : World) (hb : 2 ≤ w.buys.length) (hs : 2 ≤ w.sells.length) :
    ensureValidOrderBook w = Except.ok () := by
  unfold ensureValidOrderBook
  rw [if_neg]
  push_neg
  exact ⟨by omega, by omega⟩

/-! ### Claim theorems: decision cascade -/

/-- Claim C2: on a crossed book (spread at or below 0) the arbitrage
check emits zero actions when availableTokens is 0, and exactly two
Trade actions otherwise, one against the best buy order and one against
the best sell order, both sized
min(bestBuyOrder.balance, bestSellOrder.balance, availableTokens). -/
theorem checkArb_behaviour (w : World) (hs : spread w ≤ 0) :
    (availableTokens w = 0 → checkArbOpportunity w = [])
    ∧ (0 < availableTokens w →
        checkArbOpportunity w =
          [ActionType.Trade w.bestBuyOrder.contract w.bestBuyOrder.transaction
             (min (min w.bestBuyOrder.balance w.bestSellOrder.balance) (availableTokens w)),
           ActionType.Trade w.bestSellOrder.contract w.bestSellOrder.transaction
             (min (min w.bestBuyOrder.balance w.bestSellOrder.balance) (availableTokens w))]) := by
  unfold checkArbOpportunity
  rw [if_pos hs]
  constructor
  · intro h0
    rw [if_pos h0]
  · intro hpos
    rw [if_neg (ne_of_gt hpos)]

/-- Witness for C2 at the crossed-book input wArb. -/
theorem checkArb_behaviour_witness :
    checkArbOpportunity wArb =
      [ActionType.Trade wArb.bestBuyOrder.contract wArb.bestBuyOrder.transaction
         (min (min wArb.bestBuyOrder.balance wArb.bestSellOrder.balance) (availableTokens wArb)),
       ActionType.Trade wArb.bestSellOrder.contract wArb.bestSellOrder.transaction
         (min (min wArb.bestBuyOrder.balance wArb.bestSellOrder.balance) (availableTokens wArb))] :=
  (checkArb_behaviour wArb
      (by norm_num [spread, bestSellPrice, bestBuyPrice, wArb])).2
    (by norm_num [availableTokens, wArb, lt_min_iff])

/-- Claim C6: when the market spread is at or below the configured
spread, the new-quote step produces no action at all. -/
theorem newOrders_skip (w : World) (h : spread w ≤ w.config.spread) :
    newOrders w = [] := by
  unfold newOrders
  exact if_pos h

/-- Witness for C6 at the tight-spread input wTight. -/
theorem newOrders_skip_witness : newOrders wTight = [] :=
  newOrders_skip wTight
    (by norm_num [spread, bestSellPrice, bestBuyPrice, wTight])

/-! ### Counting cancellations (claim C3) -/

theorem filterP_cons {α : Type} (p : α → Prop) [DecidablePred p] (x : α) (xs : List α) :
    filterP p (x :: xs) = if p x then x :: filterP p xs else filterP p xs := rfl

theorem filterP_append {α : Type} (p : α → Prop) [DecidablePred p] (l1 l2 : List α) :
    filterP p (l1 ++ l2) = filterP p l1 ++ filterP p l2 := by
  induction l1 with
  | nil => rfl
  | cons x xs ih =>
    simp only [List.cons_append]
    rw [filterP_cons, filterP_cons]
    by_cases h : p x
    · rw [if_pos h, if_pos h, ih, List.cons_append]
    · rw [if_neg h, if_neg h, ih]

theorem filterP_filterP {α : Type} (p q : α → Prop) [DecidablePred p] [DecidablePred q]
    (l : List α) :
    filterP p (filterP q l) = filterP (fun x => q x ∧ p x) l := by
  induction l with
  | nil => rfl
  | cons x xs ih =>
    rw [filterP_cons q x xs, filterP_cons (fun y => q y ∧ p y) x xs]
    by_cases hq : q x
    · rw [if_pos hq, filterP_cons p x (filterP q xs)]
      by_cases hp : p x
      · rw [if_pos hp, if_pos (show q x ∧ p x from ⟨hq, hp⟩), ih]
      · rw [if_neg hp, if_neg (show ¬(q x ∧ p x) from fun h => hp h.2), ih]
    · rw [if_neg hq, if_neg (show ¬(q x ∧ p x) from fun h => hq h.1), ih]

theorem filterP_and_nil {α : Type} (p q : α → Prop) [DecidablePred p] [DecidablePred q]
    (l : List α) (h : (filterP p l).length = 0) :
    (filterP (fun x => q x ∧ p x) l).length = 0 := by
  induction l with
  | nil => rfl
  | cons x xs ih =>
    rw [filterP_cons p x xs] at h
    rw [filterP_cons (fun y => q y ∧ p y) x xs]
    by_cases hp : p x
    · rw [if_pos hp] at h
      simp at h
    · rw [if_neg hp] at h
      rw [if_neg (show ¬(q x ∧ p x) from fun hc => hp hc.2)]
      exact ih h

theorem mem_filterP_pos {α : Type} (p : α → Prop) [DecidablePred p] {l : List α} {o : α}
    (ho : o ∈ l) (hp : p o) : 1 ≤ (filterP p l).length := by
  induction l with
  | nil => cases ho
  | cons x xs ih =>
    rw [filterP_cons p x xs]
    by_cases hx : p x
    · rw [if_pos hx]
      simp
    · rw [if_neg hx]
      rcases List.mem_cons.mp ho with rfl | hmem
      · exact absurd hp hx
      · exact ih hmem

theorem filterP_and_one {α : Type} (p q : α → Prop) [DecidablePred p] [DecidablePred q]
    {l : List α} {o : α} (h1 : (filterP p l).length = 1) (ho : o ∈ l) (hp : p o) :
    (filterP (fun x => q x ∧ p x) l).length = if q o then 1 else 0 := by
  induction l with
  | nil => cases ho
  | cons x xs ih =>
    by_cases hx : p x
    · have hx0 : (filterP p xs).length = 0 := by
        rw [filterP_cons p x xs, if_pos hx] at h1
        simpa using h1
      have hox : o = x := by
        rcases List.mem_cons.mp ho with rfl | hmem
        · rfl
        · exact absurd (mem_filterP_pos p hmem hp) (by omega)
      subst hox
      rw [filterP_cons (fun y => q y ∧ p y) o xs]
      by_cases hq : q o
      · rw [if_pos (show q o ∧ p o from ⟨hq, hp⟩), if_pos hq]
        have h0 := filterP_and_nil p q xs hx0
        simp [h0]
      · rw [if_neg (show ¬(q o ∧ p o) from fun hc => hq hc.1), if_neg hq]
        exact filterP_and_nil p q xs hx0
    · have hmem : o ∈ xs := by
        rcases List.mem_cons.mp ho with rfl | hm
        · exact absurd hp hx
        · exact hm
      have h1x : (filterP p xs).length = 1 := by
        rwa [filterP_cons p x xs, if_neg hx] at h1
      rw [filterP_cons (fun y => q y ∧ p y) x xs]
      rw [if_neg (show ¬(q x ∧ p x) from fun hc => hx hc.2)]
      exact ih h1x hmem

theorem countTarget_map_cancel (c t : String) (l : List Order) :
    countTarget c t (l.map fun x => ActionType.CancelOrder x.contract x.transaction)
      = countId c t l := by
  induction l with
  | nil => rfl
  | cons x xs ih =>
    unfold countTarget countId at ih ⊢
    simp only [List.map_cons]
    rw [filterP_cons, filterP_cons]
    by_cases h : x.contract = c ∧ x.transaction = t
    · rw [if_pos (by rw [h.1, h.2]), if_pos h]
      simpa using ih
    · rw [if_neg (by simp only [ActionType.CancelOrder.injEq]; exact fun hc => h hc),
        if_neg h]
      exact ih

theorem countTarget_append (c t : String) (l1 l2 : List ActionType) :
    countTarget c t (l1 ++ l2) = countTarget c t l1 + countTarget c t l2 := by
  unfold countTarget
  rw [filterP_append, List.length_append]

theorem countId_append (c t : String) (l1 l2 : List Order) :
    countId c t (l1 ++ l2) = countId c t l1 + countId c t l2 := by
  unfold countId
  rw [filterP_append, List.length_append]

theorem countId_filterP (c t : String) (q : Order → Prop) [DecidablePred q]
    (l : List Order) :
    countId c t (filterP q l)
      = (filterP (fun x => q x ∧ (x.contract = c ∧ x.transaction = t)) l).length := by
  unfold countId
  rw [filterP_filterP]

theorem pruneSells_eq (w : World) (orders : List Order) :
    pruneSells w orders =
      filterP (fun x => x.balance * x.price ≤ w.config.dustCutoff) orders
      ++ filterP
          (fun x => weightedMidMarketPrice w + w.config.bandSize * w.config.spread < x.price)
          orders := rfl

theorem pruneBuys_eq (w : World) (orders : List Order) :
    pruneBuys w orders =
      filterP (fun x => x.balance * x.price ≤ w.config.dustCutoff) orders
      ++ filterP
          (fun x => x.price < weightedMidMarketPrice w - w.config.bandSize * w.config.spread)
          orders := rfl

/-- Claim C3, amended: the cleanup step emits one CancelOrder per
occurrence of an own order in the dust filter plus one per occurrence in
the band-outlier filter.  The two filters are not disjoint: an own order
that is both dust and an outlier is cancelled twice.  An own order inside
the band whose notional is above the dust cutoff is never cancelled
(both if-terms are then 0). -/
theorem cleanup_cancel_count (w : World) (o : Order) :
    (o ∈ w.mySells →
      countId o.contract o.transaction w.mySells = 1 →
      countId o.contract o.transaction w.myBuys = 0 →
      countTarget o.contract o.transaction (cleanupOrders w)
        = (if o.balance * o.price ≤ w.config.dustCutoff then 1 else 0)
          + (if weightedMidMarketPrice w + w.config.bandSize * w.config.spread < o.price
             then 1 else 0))
    ∧ (o ∈ w.myBuys →
      countId o.contract o.transaction w.myBuys = 1 →
      countId o.contract o.transaction w.mySells = 0 →
      countTarget o.contract o.transaction (cleanupOrders w)
        = (if o.balance * o.price ≤ w.config.dustCutoff then 1 else 0)
          + (if o.price < weightedMidMarketPrice w - w.config.bandSize * w.config.spread
             then 1 else 0)) := by
  have hexp : countTarget o.contract o.transaction (cleanupOrders w)
      = countId o.contract o.transaction
          (filterP (fun x => x.balance * x.price ≤ w.config.dustCutoff) w.mySells)
        + countId o.contract o.transaction
            (filterP
              (fun x =>
                weightedMidMarketPrice w + w.config.bandSize * w.config.spread < x.price)
              w.mySells)
        + (countId o.contract o.transaction
            (filterP (fun x => x.balance * x.price ≤ w.config.dustCutoff) w.myBuys)
          + countId o.contract o.transaction
              (filterP
                (fun x =>
                  x.price < weightedMidMarketPrice w - w.config.bandSize * w.config.spread)
                w.myBuys)) := by
    unfold cleanupOrders
    rw [List.map_append, countTarget_append, countTarget_map_cancel, countTarget_map_cancel,
      pruneSells_eq, pruneBuys_eq, countId_append, countId_append]
  constructor
  · intro ho h1 h0
    unfold countId at h1 h0
    rw [hexp, countId_filterP, countId_filterP, countId_filterP, countId_filterP]
    rw [filterP_and_one (fun x => x.contract = o.contract ∧ x.transaction = o.transaction)
      (fun x => x.balance * x.price ≤ w.config.dustCutoff) h1 ho ⟨rfl, rfl⟩]
    rw [filterP_and_one (fun x => x.contract = o.contract ∧ x.transaction = o.transaction)
      (fun x => weightedMidMarketPrice w + w.config.bandSize * w.config.spread < x.price)
      h1 ho ⟨rfl, rfl⟩]
    rw [filterP_and_nil (fun x => x.contract = o.contract ∧ x.transaction = o.transaction)
      (fun x => x.balance * x.price ≤ w.config.dustCutoff) w.myBuys h0]
    rw [filterP_and_nil (fun x => x.contract = o.contract ∧ x.transaction = o.transaction)
      (fun x => x.price < weightedMidMarketPrice w - w.config.bandSize * w.config.spread)
      w.myBuys h0]
    simp
  · intro ho h1 h0
    unfold countId at h1 h0
    rw [hexp, countId_filterP, countId_filterP, countId_filterP, countId_filterP]
    rw [filterP_and_one (fun x => x.contract = o.contract ∧ x.transaction = o.transaction)
      (fun x => x.balance * x.price ≤ w.config.dustCutoff) h1 ho ⟨rfl, rfl⟩]
    rw [filterP_and_one (fun x => x.contract = o.contract ∧ x.transaction = o.transaction)
      (fun x => x.price < weightedMidMarketPrice w - w.config.bandSize * w.config.spread)
      h1 ho ⟨rfl, rfl⟩]
    rw [filterP_and_nil (fun x => x.contract = o.contract ∧ x.transaction = o.transaction)
      (fun x => x.balance * x.price ≤ w.config.dustCutoff) w.mySells h0]
    rw [filterP_and_nil (fun x => x.contract = o.contract ∧ x.transaction = o.transaction)
      (fun x => weightedMidMarketPrice w + w.config.bandSize * w.config.spread < x.price)
      w.mySells h0]
    simp

/-- Counterexample to C3 as stated: the own sell order osell is both dust
(notional 1/10 at cutoff 1) and a band outlier (price 10 above cutoff
7/3), and the cleanup step emits two CancelOrder actions aimed at it, not
exactly one. -/
theorem cleanup_counterexample :
    osell.balance * osell.price ≤ wc3.config.dustCutoff
    ∧ weightedMidMarketPrice wc3 + wc3.config.bandSize * wc3.config.spread < osell.price
    ∧ cleanupOrders wc3
        = [ActionType.CancelOrder "c1" "t1", ActionType.CancelOrder "c1" "t1"] := by
  refine ⟨by norm_num [osell, wc3], ?_, ?_⟩
  · norm_num [weightedMidMarketPrice, bestSellPrice, bestBuyPrice, sellDepth, buyDepth,
      sumQ, List.foldl, wc3, osell, bookBuys2, bookSells2]
  · norm_num [cleanupOrders, pruneSells, pruneBuys, filterP, weightedMidMarketPrice,
      bestSellPrice, bestBuyPrice, sellDepth, buyDepth, sumQ, List.foldl, wc3, osell,
      bookBuys2, bookSells2]

/-- Witness for the amended C3 at the concrete input wc3 and its own sell
order osell. -/
theorem cleanup_cancel_count_witness :
    countTarget osell.contract osell.transaction (cleanupOrders wc3)
      = (if osell.balance * osell.price ≤ wc3.config.dustCutoff then 1 else 0)
        + (if weightedMidMarketPrice wc3 + wc3.config.bandSize * wc3.config.spread
              < osell.price
           then 1 else 0) :=
  (cleanup_cancel_count wc3 osell).1 (by simp [wc3]) (by decide) (by decide)

/-! ### New-quote pricing (claims C4, C5) and exposure bounds (C10) -/

/-- Claim C4, amended: the half-spread applied around the weighted mid
price is half of the CURRENT MARKET spread (bestSellPrice minus
bestBuyPrice), not half of config.spread: a posted buy is priced
weightedMid - spread/2 with amount availableEther divided by that
unrounded price, a posted sell is priced weightedMid + spread/2, prices
rounded to 6 decimals and amounts to the token decimals.  The depth
hypothesis scopes the statement to books where the weighted mid price is
a real number (on a zero-depth book BigNumber arithmetic degenerates to
NaN). -/
theorem newQuotes_formula (w : World) (hd : 0 < sellDepth w + buyDepth w) :
    (newBuys w = [] ∨
      newBuys w =
        [ActionType.NewOrder Side.buy
          (toFixed w.decimals
            (availableEther w / (weightedMidMarketPrice w - spread w / 2)))
          (toFixed PRICEDECIMALS (weightedMidMarketPrice w - spread w / 2))])
    ∧ (newSells w = [] ∨
      newSells w =
        [ActionType.NewOrder Side.sell
          (toFixed w.decimals (availableTokens w - tokensLockedForAddress w))
          (toFixed PRICEDECIMALS (weightedMidMarketPrice w + spread w / 2))]) := by
  constructor
  · rw [newBuys_eq]
    split_ifs <;> simp
  · rw [newSells_eq]
    split_ifs <;> simp

/-- Counterexample to C4 as stated: on the cycle input w4 the emitted buy
price is 1.333333 = toFixed 6 of (weightedMid - marketSpread/2), which
differs from toFixed 6 of (weightedMid - config.spread/2) = 1.783333. -/
theorem newBuys_uses_market_spread :
    newBuys w4 = [ActionType.NewOrder Side.buy (3 / 2) (1333333 / 1000000)]
    ∧ toFixed PRICEDECIMALS (weightedMidMarketPrice w4 - w4.config.spread / 2)
        ≠ (1333333 / 1000000 : ℚ) := by
  constructor
  · rw [newBuys_eq]
    norm_num [availableEther, weightedMidMarketPrice, spread, bestBuyPrice, bestSellPrice,
      sellDepth, buyDepth, sumQ, List.foldl, toFixed, PRICEDECIMALS, max_def,
      w4, w4buys, bookSells2]
  · norm_num [toFixed, PRICEDECIMALS, weightedMidMarketPrice, bestBuyPrice, bestSellPrice,
      sellDepth, buyDepth, sumQ, List.foldl, w4, w4buys, bookSells2]

/-- Witness for the amended C4 at the concrete input w4. -/
theorem newQuotes_formula_witness :
    newBuys w4 = [] ∨
      newBuys w4 =
        [ActionType.NewOrder Side.buy
          (toFixed w4.decimals
            (availableEther w4 / (weightedMidMarketPrice w4 - spread w4 / 2)))
          (toFixed PRICEDECIMALS (weightedMidMarketPrice w4 - spread w4 / 2))] :=
  (newQuotes_formula w4
      (by norm_num [sellDepth, buyDepth, sumQ, List.foldl, w4, w4buys, bookSells2])).1

/-- Claim C5, amended: the directions are the opposite of the claim as
stated: every produced buy quote has its unrounded price strictly GREATER
than the best buy price (the emitted price is that value rounded to 6
decimals), and every produced sell quote has its unrounded price strictly
LESS than the best sell price. -/
theorem newQuotes_improve (w : World) (hd : 0 < sellDepth w + buyDepth w) :
    (∀ a p, ActionType.NewOrder Side.buy a p ∈ newBuys w →
      bestBuyPrice w < weightedMidMarketPrice w - spread w / 2
      ∧ p = toFixed PRICEDECIMALS (weightedMidMarketPrice w - spread w / 2))
    ∧ (∀ a p, ActionType.NewOrder Side.sell a p ∈ newSells w →
      weightedMidMarketPrice w + spread w / 2 < bestSellPrice w
      ∧ p = toFixed PRICEDECIMALS (weightedMidMarketPrice w + spread w / 2)) := by
  constructor
  · intro a p hm
    rw [newBuys_eq] at hm
    split_ifs at hm with h1 h2
    · simp at hm
    · simp at hm
    · simp only [List.mem_singleton, ActionType.NewOrder.injEq, true_and] at hm
      exact ⟨not_le.mp h2, hm.2⟩
  · intro a p hm
    rw [newSells_eq] at hm
    split_ifs at hm with h1 h2
    · simp at hm
    · simp at hm
    · simp only [List.mem_singleton, ActionType.NewOrder.injEq, true_and] at hm
      exact ⟨not_le.mp h2, hm.2⟩

/-- Counterexample to C5 as stated: on w4 the produced buy order is
priced 1.333333, strictly ABOVE the best buy price 1, not below it. -/
theorem newBuys_price_above_best :
    newBuys w4 = [ActionType.NewOrder Side.buy (3 / 2) (1333333 / 1000000)]
    ∧ bestBuyPrice w4 < (1333333 / 1000000 : ℚ) := by
  constructor
  · rw [newBuys_eq]
    norm_num [availableEther, weightedMidMarketPrice, spread, bestBuyPrice, bestSellPrice,
      sellDepth, buyDepth, sumQ, List.foldl, toFixed, PRICEDECIMALS, max_def,
      w4, w4buys, bookSells2]
  · norm_num [bestBuyPrice, w4]

/-- Witness for the amended C5 at the concrete input w4 and its produced
buy quote. -/
theorem newQuotes_improve_witness :
    bestBuyPrice w4 < weightedMidMarketPrice w4 - spread w4 / 2
    ∧ (1333333 / 1000000 : ℚ)
        = toFixed PRICEDECIMALS (weightedMidMarketPrice w4 - spread w4 / 2) :=
  (newQuotes_improve w4
      (by norm_num [sellDepth, buyDepth, sumQ, List.foldl, w4, w4buys, bookSells2])).1
    (3 / 2) (1333333 / 1000000)
    (by
      rw [newBuys_eq]
      norm_num [availableEther, weightedMidMarketPrice, spread, bestBuyPrice,
        bestSellPrice, sellDepth, buyDepth, sumQ, List.foldl, toFixed, PRICEDECIMALS,
        max_def, w4, w4buys, bookSells2])

theorem sumQ_nonneg_aux (l : List ℚ) (h : ∀ x ∈ l, 0 ≤ x) :
    ∀ a, 0 ≤ a → 0 ≤ l.foldl (fun x y => x + y) a := by
  induction l with
  | nil => intro a ha; simpa using ha
  | cons x xs ih =>
    intro a ha
    simp only [List.foldl_cons]
    exact ih (fun y hy => h y (List.mem_cons_of_mem x hy)) (a + x)
      (add_nonneg ha (h x (List.mem_cons_self x xs)))

theorem sumQ_nonneg (l : List ℚ) (h : ∀ x ∈ l, 0 ≤ x) : 0 ≤ sumQ l :=
  sumQ_nonneg_aux l h 0 le_rfl

theorem toFixed_le (d : Nat) (q : ℚ) (hq : 0 ≤ q) :
    toFixed d q ≤ q + 1 / (2 * 10 ^ d) := by
  unfold toFixed
  rw [if_pos hq]
  have h10 : (0 : ℚ) < 10 ^ d := by positivity
  rw [div_le_iff h10]
  calc ((⌊q * 10 ^ d + 1 / 2⌋ : ℤ) : ℚ) ≤ q * 10 ^ d + 1 / 2 := Int.floor_le _
    _ = (q + 1 / (2 * 10 ^ d)) * 10 ^ d := by field_simp; ring

theorem checkArb_eq (w : World) :
    checkArbOpportunity w =
      if spread w ≤ 0 then
        if availableTokens w = 0 then []
        else
          [ActionType.Trade w.bestBuyOrder.contract w.bestBuyOrder.transaction
             (min (min w.bestBuyOrder.balance w.bestSellOrder.balance) (availableTokens w)),
           ActionType.Trade w.bestSellOrder.contract w.bestSellOrder.transaction
             (min (min w.bestBuyOrder.balance w.bestSellOrder.balance) (availableTokens w))]
      else [] := rfl

/-- Claim C10, amended: availableTokens is capped by config.tokenLimit,
so every arbitrage Trade amount (emitted exactly, toFixed with no
argument) is at most tokenLimit, and every new sell amount is at most
tokenLimit plus half a unit of the token decimal precision: the
pre-rounding amount never exceeds tokenLimit, but emission rounds it
half-up to the token decimals, which can push the emitted string above
tokenLimit by up to 1/(2*10^decimals). -/
theorem tokenLimit_bound (w : World) (hb : ∀ o ∈ w.mySells, 0 ≤ o.balance) :
    availableTokens w ≤ w.config.tokenLimit
    ∧ (∀ c t a, ActionType.Trade c t a ∈ checkArbOpportunity w →
        a ≤ w.config.tokenLimit)
    ∧ (∀ a p, ActionType.NewOrder Side.sell a p ∈ newSells w →
        a ≤ w.config.tokenLimit + 1 / (2 * 10 ^ w.decimals)) := by
  have hav : availableTokens w ≤ w.config.tokenLimit := min_le_right _ _
  refine ⟨hav, ?_, ?_⟩
  · intro c t a hm
    rw [checkArb_eq] at hm
    split_ifs at hm
    · simp at hm
    · simp only [List.mem_cons, List.not_mem_nil, or_false, ActionType.Trade.injEq] at hm
      rcases hm with ⟨_, _, rfl⟩ | ⟨_, _, rfl⟩ <;>
        exact le_trans (min_le_right _ _) hav
    · simp at hm
  · intro a p hm
    rw [newSells_eq] at hm
    split_ifs at hm with h1 h2
    · simp at hm
    · simp at hm
    · simp only [List.mem_singleton, ActionType.NewOrder.injEq, true_and] at hm
      have hlock : 0 ≤ tokensLockedForAddress w := by
        apply sumQ_nonneg
        intro x hx
        rcases List.mem_map.mp hx with ⟨o, ho, rfl⟩
        exact hb o ho
      have hfunds : 0 ≤ availableTokens w - tokensLockedForAddress w :=
        le_of_lt (not_le.mp h1)
      have hle : availableTokens w - tokensLockedForAddress w ≤ w.config.tokenLimit :=
        le_trans (by linarith) hav
      rw [hm.1]
      calc toFixed w.decimals (availableTokens w - tokensLockedForAddress w)
          ≤ (availableTokens w - tokensLockedForAddress w) + 1 / (2 * 10 ^ w.decimals) :=
            toFixed_le _ _ hfunds
        _ ≤ w.config.tokenLimit + 1 / (2 * 10 ^ w.decimals) := by linarith

/-- Counterexample to C10 as stated: on wc10 (tokenLimit 1/2, token
precision 0 decimals) the emitted sell amount is 1, strictly above
tokenLimit. -/
theorem newSells_exceeds_tokenLimit :
    newSells wc10 = [ActionType.NewOrder Side.sell 1 (1547619 / 1000000)]
    ∧ wc10.config.tokenLimit < 1 := by
  constructor
  · rw [newSells_eq]
    norm_num [availableTokens, tokensLockedForAddress, weightedMidMarketPrice, spread,
      bestBuyPrice, bestSellPrice, sellDepth, buyDepth, sumQ, List.foldl, toFixed,
      PRICEDECIMALS, min_def, wc10, bookBuys2, wc10sells]
  · norm_num [wc10]

/-- Witness for the amended C10 at the concrete input wc10. -/
theorem tokenLimit_bound_witness :
    availableTokens wc10 ≤ wc10.config.tokenLimit :=
  (tokenLimit_bound wc10 (by simp [wc10])).1

/-! ### The chart outlier filter (claim C8) -/

theorem filterGo_cons (U cur : ℚ) (o : Order) (r : List Order) :
    filterGo U cur (o :: r) =
      (if cur + etherBalance o ≤ U then
        (o :: (filterGo U (cur + etherBalance o) r).1, (filterGo U (cur + etherBalance o) r).2)
      else ([⟨o.price, U / o.price, o.contract, o.transaction⟩], true)) := rfl

theorem cumLimits_cons (cur : ℚ) (o : Order) (r : List Order) :
    cumLimits cur (o :: r) = (cur + etherBalance o) :: cumLimits (cur + etherBalance o) r := rfl

theorem filterGo_spec (U : ℚ) :
    ∀ (rest : List Order) (cur : ℚ),
      filterGo U cur rest =
        (if ((cumLimits cur rest).takeWhile (fun q => decide (q ≤ U))).length = rest.length
         then (rest, false)
         else
           (rest.take (((cumLimits cur rest).takeWhile (fun q => decide (q ≤ U))).length)
             ++ ((rest.drop
                  (((cumLimits cur rest).takeWhile (fun q => decide (q ≤ U))).length)).take 1).map
                (truncateOrder U),
            true)) := by
  intro rest
  induction rest with
  | nil =>
    intro cur
    simp [filterGo, cumLimits]
  | cons o r ih =>
    intro cur
    rw [filterGo_cons, cumLimits_cons]
    by_cases hcl : cur + etherBalance o ≤ U
    · have ht : ((cur + etherBalance o) :: cumLimits (cur + etherBalance o) r).takeWhile
            (fun q => decide (q ≤ U))
          = (cur + etherBalance o) ::
              (cumLimits (cur + etherBalance o) r).takeWhile (fun q => decide (q ≤ U)) := by
        rw [List.takeWhile_cons, if_pos (by simpa using hcl)]
      rw [if_pos hcl, ih (cur + etherBalance o), ht]
      simp only [List.length_cons]
      by_cases hk :
          ((cumLimits (cur + etherBalance o) r).takeWhile (fun q => decide (q ≤ U))).length
            = r.length
      · rw [if_pos hk, if_pos (by omega)]
      · rw [if_neg hk, if_neg (by omega)]
        simp only [List.take_succ_cons, List.drop_succ_cons, List.cons_append]
    · have ht : ((cur + etherBalance o) :: cumLimits (cur + etherBalance o) r).takeWhile
            (fun q => decide (q ≤ U)) = [] := by
        rw [List.takeWhile_cons, if_neg (by simpa using hcl)]
      rw [if_neg hcl, ht]
      simp only [List.length_nil, List.length_cons]
      rw [if_neg (by omega)]
      simp [truncateOrder]

/-- Claim C8: for every sell-side list of length at least 3 and cap U,
the outlier filter keeps the first two orders unconditionally, keeps each
later order while the running cumulative notional (accumulated from the
third order onward) stays at or below U, keeps the first order crossing U
with its plotted balance rewritten to U / price and the truncated flag
set, and drops all later orders: it agrees with the reference
characterization filterSpec. -/
theorem filterSellOrders_characterization (U : ℚ) (orders : List Order)
    (h : 3 ≤ orders.length) :
    filterSellOrders U orders = filterSpec U orders := by
  rcases orders with _ | ⟨o0, _ | ⟨o1, rest⟩⟩
  · simp at h
  · simp at h
  · show (o0 :: o1 :: (filterGo U 0 rest).1, (filterGo U 0 rest).2) = _
    rw [filterGo_spec U rest 0]
    show _ =
      (if keepCount U rest = rest.length then (o0 :: o1 :: rest, false)
       else
         (o0 :: o1 ::
            (rest.take (keepCount U rest)
              ++ ((rest.drop (keepCount U rest)).take 1).map (truncateOrder U)),
          true))
    unfold keepCount
    split_ifs with hk
    · simp
    · simp

/-- Witness for C8 at the three-order input l3 with cap 15 (buy depth 10,
cap 1.5 times that). -/
theorem filterSellOrders_characterization_witness :
    filterSellOrders 15 l3 = filterSpec 15 l3 :=
  filterSellOrders_characterization 15 l3 (by decide)

/-! ### Renderer safety machinery (claim C9) -/

theorem sumQ_shift (l : List ℚ) : ∀ a : ℚ, l.foldl (fun x y => x + y) a = a + sumQ l := by
  induction l with
  | nil =>
    intro a
    simp [sumQ]
  | cons x xs ih =>
    intro a
    have hx : sumQ (x :: xs) = 0 + x + sumQ xs := by
      unfold sumQ
      simp only [List.foldl_cons]
      exact ih (0 + x)
    simp only [List.foldl_cons]
    rw [ih (a + x), hx]
    ring

theorem sumQ_cons (x : ℚ) (l : List ℚ) : sumQ (x :: l) = x + sumQ l := by
  show (x :: l).foldl (fun a y => a + y) 0 = x + sumQ l
  simp only [List.foldl_cons]
  rw [sumQ_shift l (0 + x)]
  ring

theorem sumQ_eq_sum (l : List ℚ) : sumQ l = l.sum := by
  induction l with
  | nil => rfl
  | cons x xs ih => rw [sumQ_cons, List.sum_cons, ih]

theorem sumQ_map_perm (f : Order → ℚ) {l1 l2 : List Order} (h : l1.Perm l2) :
    sumQ (l1.map f) = sumQ (l2.map f) := by
  rw [sumQ_eq_sum, sumQ_eq_sum]
  exact (h.map f).sum_eq

theorem sumQ_pos (l : List ℚ) (h : ∀ x ∈ l, 0 < x) (hne : l ≠ []) : 0 < sumQ l := by
  rcases l with _ | ⟨x, xs⟩
  · exact absurd rfl hne
  · rw [sumQ_cons]
    have h1 := sumQ_nonneg xs (fun y hy => le_of_lt (h y (List.mem_cons_of_mem x hy)))
    have hx := h x (List.mem_cons_self x xs)
    linarith

theorem sumQ_take_bounds (l : List ℚ) (h : ∀ x ∈ l, 0 ≤ x) :
    ∀ n : Nat, 0 ≤ sumQ (l.take n) ∧ sumQ (l.take n) ≤ sumQ l := by
  induction l with
  | nil =>
    intro n
    simp [sumQ]
  | cons x xs ih =>
    intro n
    rcases n with _ | n
    · constructor
      · simp [sumQ]
      · exact sumQ_nonneg _ h
    · simp only [List.take_succ_cons]
      rw [sumQ_cons, sumQ_cons]
      have hx := h x (List.mem_cons_self x xs)
      have h2 := ih (fun y hy => h y (List.mem_cons_of_mem x hy)) n
      constructor
      · linarith [h2.1]
      · linarith [h2.2]

theorem insertByPrice_perm (o : Order) (l : List Order) : (insertByPrice o l).Perm (o :: l) := by
  induction l with
  | nil => exact List.Perm.refl _
  | cons x xs ih =>
    unfold insertByPrice
    by_cases h : o.price ≤ x.price
    · rw [if_pos h]
    · rw [if_neg h]
      exact (List.Perm.cons x ih).trans (List.Perm.swap o x xs)

theorem sortByPrice_perm (l : List Order) : (sortByPrice l).Perm l := by
  induction l with
  | nil => exact List.Perm.refl _
  | cons x xs ih =>
    show (insertByPrice x (sortByPrice xs)).Perm (x :: xs)
    exact (insertByPrice_perm x (sortByPrice xs)).trans (List.Perm.cons x ih)

theorem sortByPrice_mem {l : List Order} {o : Order} (h : o ∈ sortByPrice l) : o ∈ l :=
  (sortByPrice_perm l).mem_iff.mp h

theorem sortByPrice_length (l : List Order) : (sortByPrice l).length = l.length :=
  (sortByPrice_perm l).length_eq

theorem filterGo_mem (U : ℚ) :
    ∀ (l : List Order) (cur : ℚ) (o : Order), o ∈ (filterGo U cur l).1 →
      o ∈ l ∨ ∃ o2, o2 ∈ l ∧ o = truncateOrder U o2 := by
  intro l
  induction l with
  | nil =>
    intro cur o ho
    simp [filterGo] at ho
  | cons x xs ih =>
    intro cur o ho
    rw [filterGo_cons] at ho
    split_ifs at ho with h
    · simp only [List.mem_cons] at ho
      rcases ho with rfl | ho2
      · exact Or.inl (List.mem_cons_self o xs)
      · rcases ih (cur + etherBalance x) o ho2 with hin | ⟨o2, ho2m, rfl⟩
        · exact Or.inl (List.mem_cons_of_mem x hin)
        · exact Or.inr ⟨o2, List.mem_cons_of_mem x ho2m, rfl⟩
    · simp only [List.mem_singleton] at ho
      subst ho
      exact Or.inr ⟨x, List.mem_cons_self x xs, rfl⟩

theorem filterSellOrders_mem (U : ℚ) (orders : List Order) {o : Order}
    (ho : o ∈ (filterSellOrders U orders).1) :
    o ∈ orders ∨ ∃ o2, o2 ∈ orders ∧ o = truncateOrder U o2 := by
  rcases orders with _ | ⟨o0, _ | ⟨o1, rest⟩⟩
  · exact Or.inl ho
  · exact Or.inl ho
  · simp only [filterSellOrders, List.mem_cons] at ho
    rcases ho with rfl | rfl | ho2
    · exact Or.inl (List.mem_cons_self o _)
    · exact Or.inl (List.mem_cons_of_mem _ (List.mem_cons_self o rest))
    · rcases filterGo_mem U rest 0 o ho2 with hin | ⟨o2, ho2m, rfl⟩
      · exact Or.inl (List.mem_cons_of_mem _ (List.mem_cons_of_mem _ hin))
      · exact Or.inr ⟨o2, List.mem_cons_of_mem _ (List.mem_cons_of_mem _ ho2m), rfl⟩

theorem etherBalance_truncate (U : ℚ) (o : Order) (hp : o.price ≠ 0) :
    etherBalance (truncateOrder U o) = U := by
  unfold etherBalance truncateOrder
  field_simp

theorem jsRound_zero_mul (x : ℚ) : jsRound (0 * x) = 0 := by
  unfold jsRound
  norm_num

theorem jsRound_full (m : ℚ) (hm : m ≠ 0) : jsRound (m * (8 / m)) = 8 := by
  unfold jsRound
  have h8 : m * (8 / m) = 8 := by field_simp
  rw [h8]
  norm_num

theorem scaled_bounds (m v : ℚ) (hm : 0 < m) (h0 : 0 ≤ v) (hv : v ≤ m) :
    0 ≤ jsRound (v * (8 / m)) ∧ jsRound (v * (8 / m)) ≤ 8 := by
  unfold jsRound
  have hs : (0 : ℚ) < 8 / m := by positivity
  have h1 : 0 ≤ v * (8 / m) := by positivity
  have h2 : v * (8 / m) ≤ 8 := by
    have := mul_le_mul_of_nonneg_right hv (le_of_lt hs)
    have h8 : m * (8 / m) = 8 := by field_simp
    linarith
  constructor
  · exact Int.le_floor.mpr (by push_cast; linarith)
  · calc ⌊v * (8 / m) + 1 / 2⌋ ≤ ⌊(17 : ℚ) / 2⌋ := Int.floor_le_floor (by linarith)
      _ = 8 := by norm_num

theorem mem_intRange {y lo hi : ℤ} (h : y ∈ intRange lo hi) : lo ≤ y ∧ y < hi := by
  unfold intRange at h
  rcases List.mem_map.mp h with ⟨k, hk, rfl⟩
  rw [List.mem_range] at hk
  omega

theorem setCell_ok (g : Grid) (i j : ℤ) (s : String) (h0 : 0 ≤ i)
    (h1 : i < (g.length : ℤ)) :
    ∃ g2, setCell g i j s = Except.ok g2 ∧ g2.length = g.length := by
  unfold setCell
  rw [if_pos ⟨h0, h1⟩]
  by_cases hj : 0 ≤ j
  · rw [if_pos hj]
    exact ⟨_, rfl, by simp⟩
  · rw [if_neg hj]
    exact ⟨_, rfl, rfl⟩

theorem bind_ok_chainP {α β : Type} {e : Except String α} {k : α → Except String β}
    {P : α → Prop} {Q : β → Prop}
    (he : ∃ a, e = Except.ok a ∧ P a)
    (hk : ∀ a, P a → ∃ b, k a = Except.ok b ∧ Q b) :
    ∃ b, (e >>= k) = Except.ok b ∧ Q b := by
  obtain ⟨a, ha, hpa⟩ := he
  obtain ⟨b, hb, hqb⟩ := hk a hpa
  refine ⟨b, ?_, hqb⟩
  rw [ha]
  exact hb

theorem bind_ok_last {α β : Type} {e : Except String α} {k : α → Except String β}
    {P : α → Prop}
    (he : ∃ a, e = Except.ok a ∧ P a)
    (hk : ∀ a, P a → ∃ b, k a = Except.ok b) :
    ∃ b, (e >>= k) = Except.ok b := by
  obtain ⟨a, ha, hpa⟩ := he
  obtain ⟨b, hb⟩ := hk a hpa
  refine ⟨b, ?_⟩
  rw [ha]
  exact hb

theorem foldlM_grid_ok {α : Type} (body : Grid → α → Except String Grid) (l : List α)
    (N : Nat)
    (hb : ∀ x ∈ l, ∀ g : Grid, g.length = N →
      ∃ g2, body g x = Except.ok g2 ∧ g2.length = N) :
    ∀ g : Grid, g.length = N → ∃ g2, List.foldlM body g l = Except.ok g2 ∧ g2.length = N := by
  induction l with
  | nil =>
    intro g hg
    exact ⟨g, rfl, hg⟩
  | cons x xs ih =>
    intro g hg
    obtain ⟨g1, e1, l1⟩ := hb x (List.mem_cons_self x xs) g hg
    obtain ⟨g2, e2, l2⟩ := ih (fun y hy => hb y (List.mem_cons_of_mem x hy)) g1 l1
    refine ⟨g2, ?_, l2⟩
    rw [List.foldlM_cons, e1]
    exact e2

theorem drawStep_ok (g : Grid) (rows : Nat) (col y0 y1 : ℤ) (colour : String → String)
    (hg : g.length = rows + 1) (h00 : 0 ≤ y0) (h01 : y0 ≤ (rows : ℤ))
    (h10 : 0 ≤ y1) (h11 : y1 ≤ (rows : ℤ)) :
    ∃ g2, drawStep g rows col y0 y1 colour = Except.ok g2 ∧ g2.length = rows + 1 := by
  unfold drawStep
  by_cases he : y0 = y1
  · rw [if_pos he]
    obtain ⟨g2, e2, l2⟩ := setCell_ok g ((rows : ℤ) - y0) col (colour "─") (by omega)
      (by rw [hg]; push_cast; omega)
    exact ⟨g2, e2, by rw [l2, hg]⟩
  · rw [if_neg he]
    apply bind_ok_chainP (P := fun g2 => g2.length = rows + 1)
    · obtain ⟨g2, e2, l2⟩ := setCell_ok g ((rows : ℤ) - y1) col _ (by omega)
        (by rw [hg]; push_cast; omega)
      exact ⟨g2, e2, by rw [l2, hg]⟩
    · intro g2 hl2
      apply bind_ok_chainP (P := fun g3 => g3.length = rows + 1)
      · obtain ⟨g3, e3, l3⟩ := setCell_ok g2 ((rows : ℤ) - y0) col _ (by omega)
          (by rw [hl2]; push_cast; omega)
        exact ⟨g3, e3, by rw [l3, hl2]⟩
      · intro g3 hl3
        apply foldlM_grid_ok _ _ (rows + 1) ?_ g3 hl3
        intro y hy g4 hg4
        have hyb := mem_intRange hy
        have hmaxr : max y0 y1 ≤ (rows : ℤ) := max_le h01 h11
        have hmin0 : (0 : ℤ) ≤ min y0 y1 := le_min h00 h10
        obtain ⟨g5, e5, l5⟩ := setCell_ok g4 ((rows : ℤ) - y) col (colour "│") (by omega)
          (by rw [hg4]; push_cast; omega)
        exact ⟨g5, e5, by rw [l5, hg4]⟩

theorem setCell_okP (g : Grid) (i j : ℤ) (s : String) (N : Nat) (hg : g.length = N)
    (h0 : 0 ≤ i) (h1 : i < (N : ℤ)) :
    ∃ g2, setCell g i j s = Except.ok g2 ∧ g2.length = N := by
  obtain ⟨g2, e2, l2⟩ := setCell_ok g i j s h0 (by rw [hg]; exact h1)
  exact ⟨g2, e2, by rw [l2, hg]⟩

theorem mkChart_ok (buys sells : List Order) (hb2 : 2 ≤ buys.length) :
    mkChart buys sells = Except.ok
      ⟨sortByPrice sells,
       sortByPrice
         (filterSellOrders (sumQ ((sortByPrice sells).map etherBalance) * (3 / 2)) buys).1,
       sumQ ((sortByPrice sells).map etherBalance),
       sumQ
         ((filterSellOrders (sumQ ((sortByPrice sells).map etherBalance) * (3 / 2))
            buys).1.map etherBalance),
       (filterSellOrders (sumQ ((sortByPrice sells).map etherBalance) * (3 / 2)) buys).2⟩ := by
  have h : mkChart buys sells =
      if 2 ≤ buys.length then
        Except.ok
          ⟨sortByPrice sells,
           sortByPrice
             (filterSellOrders (sumQ ((sortByPrice sells).map etherBalance) * (3 / 2)) buys).1,
           sumQ ((sortByPrice sells).map etherBalance),
           sumQ
             ((filterSellOrders (sumQ ((sortByPrice sells).map etherBalance) * (3 / 2))
                buys).1.map etherBalance),
           (filterSellOrders (sumQ ((sortByPrice sells).map etherBalance) * (3 / 2)) buys).2⟩
      else Except.error "TypeError: cannot read properties of undefined" := rfl
  rw [h, if_pos hb2]

theorem buyDepthAtIndex_bounds (c : OrderBookChart)
    (hb : ∀ o ∈ c.buys, 0 ≤ etherBalance o)
    (hbd : c.buyDepth = sumQ (c.buys.map etherBalance)) (i : Nat) :
    0 ≤ buyDepthAtIndex c i ∧ buyDepthAtIndex c i ≤ c.buyDepth := by
  unfold buyDepthAtIndex
  rw [List.map_take, hbd]
  have h := sumQ_take_bounds (c.buys.map etherBalance)
    (by intro x hx; rcases List.mem_map.mp hx with ⟨o, ho, rfl⟩; exact hb o ho) (i + 1)
  constructor
  · linarith [h.2]
  · linarith [h.1]

theorem sellDepthAtIndex_bounds (c : OrderBookChart)
    (hs : ∀ o ∈ c.sells, 0 ≤ etherBalance o)
    (hsd : c.sellDepth = sumQ (c.sells.map etherBalance)) (i : Nat) :
    0 ≤ sellDepthAtIndex c i ∧ sellDepthAtIndex c i ≤ c.sellDepth := by
  unfold sellDepthAtIndex
  rw [List.map_take, hsd]
  exact sumQ_take_bounds (c.sells.map etherBalance)
    (by intro x hx; rcases List.mem_map.mp hx with ⟨o, ho, rfl⟩; exact hs o ho) (i + 1)

theorem plot_ok (c : OrderBookChart)
    (hbuys : ∀ o ∈ c.buys, 0 ≤ etherBalance o)
    (hsells : ∀ o ∈ c.sells, 0 ≤ etherBalance o)
    (hbd : c.buyDepth = sumQ (c.buys.map etherBalance))
    (hsd : c.sellDepth = sumQ (c.sells.map etherBalance))
    (hpos : 0 < c.buyDepth) :
    ∃ t, plot c = Except.ok t := by
  set m : ℚ := if c.sellDepth < c.buyDepth then c.buyDepth else c.sellDepth with hm_def
  have hm : 0 < m := by
    rw [hm_def]
    split_ifs with h
    · exact hpos
    · exact lt_of_lt_of_le hpos (not_lt.mp h)
  have hbdm : c.buyDepth ≤ m := by
    rw [hm_def]
    split_ifs with h
    · exact le_refl _
    · exact not_lt.mp h
  have hsdm : c.sellDepth ≤ m := by
    rw [hm_def]
    split_ifs with h
    · exact le_of_lt h
    · exact le_refl _
  have hbi : ∀ i : Nat, 0 ≤ jsRound (buyDepthAtIndex c i * (8 / m))
      ∧ jsRound (buyDepthAtIndex c i * (8 / m)) ≤ 8 := by
    intro i
    have hb := buyDepthAtIndex_bounds c hbuys hbd i
    exact scaled_bounds m _ hm hb.1 (le_trans hb.2 hbdm)
  have hsi : ∀ i : Nat, 0 ≤ jsRound (sellDepthAtIndex c i * (8 / m))
      ∧ jsRound (sellDepthAtIndex c i * (8 / m)) ≤ 8 := by
    intro i
    have hb := sellDepthAtIndex_bounds c hsells hsd i
    exact scaled_bounds m _ hm hb.1 (le_trans hb.2 hsdm)
  simp only [plot]
  rw [← hm_def]
  rw [if_neg (ne_of_gt hm)]
  simp only [jsRound_zero_mul, jsRound_full m (ne_of_gt hm), sub_zero,
    show ((8 : ℤ)).natAbs = 8 from rfl]
  apply bind_ok_last (P := fun g : Grid => g.length = 8 + 1)
  · refine foldlM_grid_ok _ _ (8 + 1) ?_ _ ?_
    · intro y hy g hg
      have hyb := mem_intRange hy
      apply bind_ok_chainP (P := fun g2 : Grid => g2.length = 8 + 1)
        (Q := fun g2 : Grid => g2.length = 8 + 1)
      · exact setCell_okP g y _ _ (8 + 1) hg (by omega) (by push_cast; omega)
      · intro g2 hl2
        exact setCell_okP g2 y _ _ (8 + 1) hl2 (by omega) (by push_cast; omega)
    · simp
  · intro g1 hl1
    apply bind_ok_last (P := fun g : Grid => g.length = 8 + 1)
    · have h0 := hbi 0
      exact setCell_okP g1 _ _ _ (8 + 1) hl1 (by push_cast; omega) (by push_cast; omega)
    · intro g2 hl2
      apply bind_ok_last (P := fun g : Grid => g.length = 8 + 1)
      · refine foldlM_grid_ok _ _ (8 + 1) ?_ _ hl2
        intro x hx g hg
        have h0 := hbi (x.toNat + 0)
        have h1 := hbi (x.toNat + 1)
        exact drawStep_ok g 8 _ _ _ chalkGreen hg (by omega) (by push_cast; omega)
          (by omega) (by push_cast; omega)
      · intro g3 hl3
        have h0 := hsi 0
        have h1 := hsi 1
        by_cases hst : jsRound (sellDepthAtIndex c 1 * (8 / m))
            ≠ jsRound (sellDepthAtIndex c 0 * (8 / m))
        · rw [if_pos hst]
          apply bind_ok_last (P := fun g : Grid => g.length = 8 + 1)
          · exact setCell_okP g3 _ _ _ (8 + 1) hl3 (by norm_num)
              (by norm_num)
          · intro g4 hl4
            apply bind_ok_last (P := fun g : Grid => g.length = 8 + 1)
            · exact setCell_okP g4 _ _ _ (8 + 1) hl4 (by push_cast; omega)
                (by push_cast; omega)
            · intro g5 hl5
              apply bind_ok_last (P := fun g : Grid => g.length = 8 + 1)
              · refine foldlM_grid_ok _ _ (8 + 1) ?_ _ hl5
                intro y hy g hg
                have hyb := mem_intRange hy
                exact setCell_okP g _ _ _ (8 + 1) hg (by push_cast; omega)
                  (by push_cast; omega)
              · intro g6 hl6
                apply bind_ok_last (P := fun g : Grid => g.length = 8 + 1)
                · refine foldlM_grid_ok _ _ (8 + 1) ?_ _ hl6
                  intro x hx g hg
                  have hx0 := hsi (x.toNat + 0)
                  have hx1 := hsi (x.toNat + 1)
                  exact drawStep_ok g 8 _ _ _ chalkRed hg (by omega)
                    (by push_cast; omega) (by omega) (by push_cast; omega)
                · intro g7 hl7
                  by_cases htr : c.truncated = true
                  · rw [if_pos htr]
                    apply bind_ok_last (P := fun g : Grid => g.length = 8 + 1)
                    · exact setCell_okP g7 0 _ _ (8 + 1) hl7 (by norm_num)
                        (by norm_num)
                    · intro g8 hl8
                      exact ⟨_, rfl⟩
                  · rw [if_neg htr]
                    exact ⟨_, rfl⟩
        · rw [if_neg hst]
          apply bind_ok_last (P := fun g : Grid => g.length = 8 + 1)
          · exact setCell_okP g3 _ _ _ (8 + 1) hl3 (by norm_num)
              (by norm_num)
          · intro g4 hl4
            apply bind_ok_last (P := fun g : Grid => g.length = 8 + 1)
            · refine foldlM_grid_ok _ _ (8 + 1) ?_ _ hl4
              intro x hx g hg
              have hx0 := hsi (x.toNat + 0)
              have hx1 := hsi (x.toNat + 1)
              exact drawStep_ok g 8 _ _ _ chalkRed hg (by omega)
                (by push_cast; omega) (by omega) (by push_cast; omega)
            · intro g5 hl5
              by_cases htr : c.truncated = true
              · rw [if_pos htr]
                apply bind_ok_last (P := fun g : Grid => g.length = 8 + 1)
                · exact setCell_okP g5 0 _ _ (8 + 1) hl5 (by norm_num)
                    (by norm_num)
                · intro g6 hl6
                  exact ⟨_, rfl⟩
              · rw [if_neg htr]
                exact ⟨_, rfl⟩

theorem except_bind_ok_eq {α β : Type} (a : α) (f : α → Except String β) :
    (Except.ok a : Except String α).bind f = f a := rfl

theorem renderChart_ok (buys sells : List Order)
    (hb2 : 2 ≤ buys.length) (hs2 : 2 ≤ sells.length)
    (hbp : ∀ o ∈ buys, 0 < o.price ∧ 0 < o.balance)
    (hsp : ∀ o ∈ sells, 0 < o.price ∧ 0 < o.balance) :
    ∃ t, renderChart buys sells = Except.ok t := by
  have hBD : 0 < sumQ ((sortByPrice sells).map etherBalance) := by
    apply sumQ_pos
    · intro x hx
      rcases List.mem_map.mp hx with ⟨o, ho, rfl⟩
      have h := hsp o (sortByPrice_mem ho)
      exact mul_pos h.2 h.1
    · have hlen : ((sortByPrice sells).map etherBalance).length = sells.length := by
        rw [List.length_map, sortByPrice_length]
      intro hnil
      rw [hnil] at hlen
      simp at hlen
      omega
  unfold renderChart
  rw [mkChart_ok buys sells hb2, except_bind_ok_eq]
  apply plot_ok
  · intro o ho
    have h := hsp o (sortByPrice_mem ho)
    exact le_of_lt (mul_pos h.2 h.1)
  · intro o ho
    have hofb := sortByPrice_mem ho
    rcases filterSellOrders_mem _ buys hofb with hin | ⟨o2, ho2, rfl⟩
    · have h := hbp o hin
      exact le_of_lt (mul_pos h.2 h.1)
    · rw [etherBalance_truncate _ o2 (ne_of_gt (hbp o2 ho2).1)]
      positivity
  · rfl
  · exact (sumQ_map_perm etherBalance (sortByPrice_perm _)).symm
  · exact hBD

/-- Claim C9, amended: the depth-chart renderer completes without
throwing and returns a text block for every input with at least 2 orders
per side (the lower bound the upstream book-health guard actually
enforces) and positive prices and balances; with exactly one order per
side the constructor throws (see the counterexample), so 1 per side is
not the safe minimum the claim states. -/
theorem renderChart_safe (buys sells : List Order)
    (hb2 : 2 ≤ buys.length) (hs2 : 2 ≤ sells.length)
    (hbp : ∀ o ∈ buys, 0 < o.price ∧ 0 < o.balance)
    (hsp : ∀ o ∈ sells, 0 < o.price ∧ 0 < o.balance) :
    ∃ t, renderChart buys sells = Except.ok t :=
  renderChart_ok buys sells hb2 hs2 hbp hsp

/-- Counterexample to C9 as stated: with exactly one order per side the
chart constructor pushes two undefined array slots in filterSellOrders
and the subsequent notional reduction dereferences undefined, so the
renderer throws instead of returning a text block. -/
theorem renderChart_throws_one_per_side :
    renderChart [⟨2, 1, "b1", "bt1"⟩] [⟨1, 1, "s1", "st1"⟩]
      = Except.error "TypeError: cannot read properties of undefined" := rfl

/-- Witness for the amended C9 at the healthy two-per-side book. -/
theorem renderChart_safe_witness :
    isOk (renderChart bookBuys2 bookSells2) = true := by
  obtain ⟨t, ht⟩ := renderChart_safe bookBuys2 bookSells2 (by decide) (by decide)
    (by
      intro o ho
      simp only [bookBuys2, List.mem_cons, List.not_mem_nil, or_false] at ho
      rcases ho with rfl | rfl <;> exact ⟨by norm_num, by norm_num⟩)
    (by
      intro o ho
      simp only [bookSells2, List.mem_cons, List.not_mem_nil, or_false] at ho
      rcases ho with rfl | rfl <;> exact ⟨by norm_num, by norm_num⟩)
  rw [ht]
  rfl

/-! ### The full decision cycle (claims C1 and C7) -/

theorem printMarketHealth_ok (w : World) (hb2 : 2 ≤ w.buys.length)
    (hs2 : 2 ≤ w.sells.length)
    (hbp : ∀ o ∈ w.buys, 0 < o.price ∧ 0 < o.balance)
    (hsp : ∀ o ∈ w.sells, 0 < o.price ∧ 0 < o.balance) :
    printMarketHealth w = Except.ok () := by
  obtain ⟨t, ht⟩ := renderChart_ok w.buys w.sells hb2 hs2 hbp hsp
  unfold printMarketHealth
  rw [ht]

theorem plot_zero_range (c : OrderBookChart) (hb : c.buyDepth = 0) (hs : c.sellDepth = 0) :
    plot c = Except.error "RangeError: invalid array length" := by
  simp only [plot]
  rw [if_pos (by rw [hb, hs]; simp)]

theorem getActions_eq (w : World) (hb : 2 ≤ w.buys.length) (hs : 2 ≤ w.sells.length)
    (hpm : printMarketHealth w = Except.ok ()) :
    getActions w =
      (if (checkArbOpportunity w).length ≠ 0 then Except.ok (checkArbOpportunity w)
       else if (cleanupOrders w).length ≠ 0 then Except.ok (cleanupOrders w)
       else if (newOrders w).length ≠ 0 then Except.ok (newOrders w)
       else Except.ok ([] : List ActionType)) := by
  unfold getActions
  rw [ensureValid_ok w hb hs, hpm]

/-- Claim C7: a book side with fewer than 2 orders makes getActions fail
with the thin-book error before any action is produced; with at least 2
orders per side the health guard itself passes without error. -/
theorem thinBook_guard (w : World) :
    ((w.buys.length < 2 ∨ w.sells.length < 2) →
      getActions w = Except.error thinBookMessage)
    ∧ (2 ≤ w.buys.length → 2 ≤ w.sells.length →
      ensureValidOrderBook w = Except.ok ()) := by
  constructor
  · intro h
    unfold getActions ensureValidOrderBook
    rw [if_pos h]
  · intro hb hs
    exact ensureValid_ok w hb hs

/-- Witness for C7: the empty-buy-side input is rejected with the
thin-book message and the guard passes on the healthy input wc3. -/
theorem thinBook_guard_witness :
    getActions wThin = Except.error thinBookMessage
    ∧ ensureValidOrderBook wc3 = Except.ok () :=
  ⟨(thinBook_guard wThin).1 (by decide), (thinBook_guard wc3).2 (by decide) (by decide)⟩

/-- Claim C1, amended: for every order book with at least 2 orders per
side whose orders carry positive prices and balances (so the diagnostic
chart that getActions renders before deciding cannot throw), one
invocation of getActions evaluates arbitrage, then cleanup, then
new-quote generation in that order, returns the first non-empty action
list, and the returned list never mixes action kinds: it is all Trade
actions, all CancelOrder actions, all NewOrder actions, or empty.  On a
two-per-side book with zero notional depth the cycle instead throws
while rendering the chart (see the counterexample). -/
theorem getActions_flow (w : World) (hb : 2 ≤ w.buys.length) (hs : 2 ≤ w.sells.length)
    (hbp : ∀ o ∈ w.buys, 0 < o.price ∧ 0 < o.balance)
    (hsp : ∀ o ∈ w.sells, 0 < o.price ∧ 0 < o.balance) :
    getActions w =
      Except.ok
        (if (checkArbOpportunity w).length ≠ 0 then checkArbOpportunity w
         else if (cleanupOrders w).length ≠ 0 then cleanupOrders w
         else newOrders w)
    ∧ ∀ l, getActions w = Except.ok l →
        ((∀ a ∈ l, isTrade a = true) ∨ (∀ a ∈ l, isCancel a = true) ∨
          (∀ a ∈ l, isNewOrder a = true)) := by
  have hpm := printMarketHealth_ok w hb hs hbp hsp
  constructor
  · rw [getActions_eq w hb hs hpm]
    split_ifs with h1 h2 h3
    · rfl
    · rfl
    · rfl
    · have hn : newOrders w = [] := by
        rcases List.eq_nil_or_concat (newOrders w) with he | ⟨l2, a, he⟩
        · exact he
        · exact absurd (by rw [he]; simp) h3
      rw [hn]
  · intro l hl
    rw [getActions_eq w hb hs hpm] at hl
    split_ifs at hl with h1 h2 h3 <;>
      simp only [Except.ok.injEq] at hl <;> subst hl
    · exact Or.inl (checkArb_isTrade w)
    · exact Or.inr (Or.inl (cleanup_isCancel w))
    · exact Or.inr (Or.inr (newOrders_isNewOrder w))
    · exact Or.inl (by intro a ha; simp at ha)

/-- Counterexample to C1 as stated: wZero has 2 orders per side, so it
passes the health guard, yet getActions throws the RangeError raised by
the diagnostic chart on a zero-notional book (8 divided by a zero range
gives Infinity, the derived row count is NaN, and Array(NaN) throws)
instead of returning an action list. -/
theorem getActions_zero_balance_throws :
    2 ≤ wZero.buys.length ∧ 2 ≤ wZero.sells.length
    ∧ getActions wZero = Except.error "RangeError: invalid array length" := by
  refine ⟨by decide, by decide, ?_⟩
  have hb0 : sumQ ((sortByPrice wZero.sells).map etherBalance) = 0 := by
    rw [sumQ_map_perm etherBalance (sortByPrice_perm _)]
    norm_num [wZero, zeroSells, sumQ, List.foldl, etherBalance]
  have hs0 : sumQ
      ((filterSellOrders (sumQ ((sortByPrice wZero.sells).map etherBalance) * (3 / 2))
        wZero.buys).1.map etherBalance) = 0 := by
    simp only [wZero, zeroBuys, filterSellOrders, filterGo]
    norm_num [sumQ, List.foldl, etherBalance]
  have hrc : renderChart wZero.buys wZero.sells
      = Except.error "RangeError: invalid array length" := by
    unfold renderChart
    rw [mkChart_ok wZero.buys wZero.sells (by decide), except_bind_ok_eq]
    exact plot_zero_range _ hb0 hs0
  have hpm : printMarketHealth wZero = Except.error "RangeError: invalid array length" := by
    unfold printMarketHealth
    rw [hrc]
  unfold getActions
  rw [ensureValid_ok wZero (by decide) (by decide), hpm]

/-- Witness for the amended C1 at the concrete cycle input wc3, whose
book carries positive prices and balances. -/
theorem getActions_flow_witness :
    getActions wc3 =
      Except.ok
        (if (checkArbOpportunity wc3).length ≠ 0 then checkArbOpportunity wc3
         else if (cleanupOrders wc3).length ≠ 0 then cleanupOrders wc3
         else newOrders wc3) :=
  (getActions_flow wc3 (by decide) (by decide)
    (by
      intro o ho
      simp only [wc3, bookBuys2, List.mem_cons, List.not_mem_nil, or_false] at ho
      rcases ho with rfl | rfl <;> exact ⟨by norm_num, by norm_num⟩)
    (by
      intro o ho
      simp only [wc3, bookSells2, List.mem_cons, List.not_mem_nil, or_false] at ho
      rcases ho with rfl | rfl <;> exact ⟨by norm_num, by norm_num⟩)).1

end Saturn
